import Mathlib

/-!
# wzap: access-log and recovery middleware

A shallow embedding of `zap.go`.  The request context, the logger and the
clock belong to the surrounding framework; they are represented by plain
data: a handler is a function from the downstream chain, the clock readings
it takes and the incoming request context to a `Result` holding the final
context, the records it handed to the logger, and the panic (if any) that
leaves it.
-/

namespace Wzap

/-! ## Values exchanged with the framework -/

/-- A clock reading (`time.Time`): an instant and the location it is shown in. -/
structure Time where
  nanos : Int
  loc : String
deriving DecidableEq, Repr

/-- An `*os.SyscallError`: the name of the system call and the message of the
error it wraps. -/
structure SyscallError where
  Syscall : String
  Err : String
deriving DecidableEq, Repr

/-- Method `Error` of `*os.SyscallError`. -/
def SyscallError.Error (se : SyscallError) : String :=
  se.Syscall ++ ": " ++ se.Err

/-- The dynamic value of the `Err` field of a `*net.OpError`. -/
inductive NetErr where
  | syscall (se : SyscallError)
  | other (text : String)
deriving DecidableEq, Repr

/-- A value implementing Go's `error` interface.  `text` is what its `Error`
method returns. -/
inductive GoError where
  | opError (text : String) (Err : NetErr)
  | other (text : String)
deriving DecidableEq, Repr

/-- Method `Error` of an error value. -/
def GoError.Error : GoError → String
  | .opError text _ => text
  | .other text => text

/-- A non-nil value passed to `panic`: either an error or any other value
(for instance a string). -/
inductive PanicValue where
  | error (e : GoError)
  | value (text : String)
deriving DecidableEq, Repr

/-- The runtime error raised by calling a nil function or using a nil pointer. -/
def nilDereference : PanicValue :=
  .error (.other "runtime error: invalid memory address or nil pointer dereference")

/-- The runtime error raised by a failed type assertion `err.(error)`. -/
def notAnError : PanicValue :=
  .error (.other "interface conversion: interface is not error")

/-- The value carried by a `zap.Field`. -/
inductive FieldValue where
  | int (n : Int)
  | string (s : String)
  | duration (d : Int)
  | time (t : Time)
  | any (v : PanicValue)
deriving DecidableEq, Repr

/-- A `zap.Field`: a key and a value. -/
structure Field where
  key : String
  value : FieldValue
deriving DecidableEq, Repr

/-- The level of an emission call on the logger. -/
inductive Level where
  | info
  | error
deriving DecidableEq, Repr

/-- One emission call on the logger: `logger.Info(msg, fields...)` or
`logger.Error(msg, fields...)`. -/
structure Record where
  level : Level
  msg : String
  fields : List Field
deriving DecidableEq, Repr

/-- The parts of `c.Request` the middleware reads. -/
structure Request where
  method : String
  path : String
  rawQuery : String
  userAgent : String
deriving DecidableEq, Repr

/-- The parts of `*gin.Context` the middleware reads and writes: the request,
`c.ClientIP()`, `c.Writer.Status()`, `c.Writer.Written()`, `c.Errors` and
whether the chain has been aborted. -/
structure Context where
  request : Request
  clientIP : String
  status : Int
  written : Bool
  errors : List GoError
  aborted : Bool
deriving DecidableEq, Repr

/-- Method `Errors` of `c.Errors`: the message of every accumulated error. -/
def Context.Errors (c : Context) : List String :=
  c.errors.map GoError.Error

/-- Method `Error` of the context: attach an error to the request. -/
def Context.Error (c : Context) (e : GoError) : Context :=
  { c with errors := c.errors ++ [e] }

/-- Method `Abort` of the context: no later handler of the chain runs. -/
def Context.Abort (c : Context) : Context :=
  { c with aborted := true }

/-- Method `Status` of the context, which is `WriteHeader` of the response
writer: the status is replaced unless the response has already been written. -/
def Context.Status (c : Context) (code : Int) : Context :=
  if code > 0 ∧ c.status ≠ code then
    if c.written then c else { c with status := code }
  else c

/-- Method `WriteHeaderNow` of the response writer: the header is sent if it has
not been sent yet. -/
def Context.WriteHeaderNow (c : Context) : Context :=
  if c.written then c else { c with written := true }

/-- Method `AbortWithStatus` of the context: `Status`, `WriteHeaderNow`, `Abort`. -/
def Context.AbortWithStatus (c : Context) (code : Int) : Context :=
  ((c.Status code).WriteHeaderNow).Abort

/-- Constant `http.StatusInternalServerError`. -/
def StatusInternalServerError : Int := 500

/-- What `c.Next()` does: the downstream chain either returns, or panics with a
value; in both cases it may have changed the context. -/
inductive Outcome where
  | returned (c : Context)
  | panicked (v : PanicValue) (c : Context)

/-- What one run of a handler does: the context it leaves, the emission calls it
made on the logger (oldest first), and the panic that leaves it, if any. -/
structure Result where
  ctx : Context
  log : List Record
  fault : Option PanicValue
deriving DecidableEq, Repr

/-- Library functions the middleware calls and whose results it only passes on:
`strings.ToLower`, `Time.Sub`, `Time.UTC`, `Time.Format` and
`httputil.DumpRequest(r, false)` (as a string, its error dropped). -/
structure Runtime where
  toLower : String → String
  sub : Time → Time → Int
  utc : Time → Time
  format : Time → String → String
  dumpRequest : Request → String

/-- Whether `sub` occurs in `s` as a contiguous run of characters. -/
def hasInfix : List Char → List Char → Bool
  | [], sub => sub.isEmpty
  | c :: cs, sub => sub.isPrefixOf (c :: cs) || hasInfix cs sub

/-- Function `strings.Contains`. -/
def stringsContains (s substr : String) : Bool :=
  hasInfix s.data substr.data

/-! ## Options -/

/-- A `*zap.Logger` handle. -/
structure Logger where
  id : Nat
deriving DecidableEq, Repr

/-- Go type `customFieldFunc`. -/
abbrev customFieldFunc := Context → Field

/-- Go type `skipFunc`. -/
abbrev skipFunc := Context → Bool

/-- Go struct `Options`.  The logger and the function-typed fields may be nil,
which is `none`. -/
structure Options where
  timeFormat : String
  utc : Bool
  skipPaths : List String
  logger : Option Logger
  customFields : List (Option customFieldFunc)
  stack : Bool
  skipFunc : Option skipFunc

/-- A non-nil value of Go type `Option`: a function that updates the options in
place.  An `Option` that may be nil is an `Option OptionFunc`. -/
abbrev OptionFunc := Options → Options

def WithTimeFormat (format : String) : OptionFunc :=
  fun options => { options with timeFormat := format }

def WithUTC (utc : Bool) : OptionFunc :=
  fun options => { options with utc := utc }

def WithStack (stack : Bool) : OptionFunc :=
  fun options => { options with stack := stack }

def WithSkipPaths (skipPaths : List String) : OptionFunc :=
  fun options => { options with skipPaths := skipPaths }

def WithZapLogger (logger : Option Logger) : OptionFunc :=
  fun options => { options with logger := logger }

def WithCustomFields (fields : List (Option customFieldFunc)) : OptionFunc :=
  fun options => { options with customFields := options.customFields ++ fields }

def WithSkip (skip : Option skipFunc) : OptionFunc :=
  fun options => { options with skipFunc := skip }

/-- Constant `time.RFC3339Nano`. -/
def RFC3339Nano : String := "2006-01-02T15:04:05.999999999Z07:00"

/-- The record `newOptions` starts from. -/
def defaultOptions : Options :=
  { timeFormat := RFC3339Nano
    utc := false
    skipPaths := []
    logger := none
    customFields := []
    stack := false
    skipFunc := some (fun _ => false) }

/-- The loop of `newOptions`: every option is applied, in order, to the record;
calling a nil option panics. -/
def applyOptions : List (Option OptionFunc) → Options → Except PanicValue Options
  | [], options => .ok options
  | none :: _, _ => .error nilDereference
  | some opt :: rest, options => applyOptions rest (opt options)

/-- Function `newOptions`.  `Except.error v` is a panic with value `v`. -/
def newOptions (opts : List (Option OptionFunc)) : Except PanicValue Options :=
  match applyOptions opts defaultOptions with
  | .error v => .error v
  | .ok options =>
    if options.logger.isNone then
      .error (.value "zap log err!")
    else
      .ok options

/-! ## The access-log handler -/

/-- A `map[string]bool`: the value stored at a key, if any. -/
abbrev PathMap := String → Option Bool

/-- The empty map, `make(map[string]bool, n)`. -/
def PathMap.empty : PathMap := fun _ => none

/-- Assignment `m[key] = value`. -/
def PathMap.set (m : PathMap) (key : String) (value : Bool) : PathMap :=
  fun k => if k = key then some value else m k

/-- The loop of `New` that fills the map of skipped paths. -/
def buildSkipPaths (skipPaths : List String) : PathMap :=
  skipPaths.foldl (fun m path => m.set path true) PathMap.empty

/-- The loop `for _, field := range customFields` that appends `field(c)` to
`fields`; `none` when it reaches a nil function, whose call panics. -/
def appendCustomFields : List (Option customFieldFunc) → Context → List Field → Option (List Field)
  | [], _, fields => some fields
  | none :: _, _, _ => none
  | some field :: rest, c, fields => appendCustomFields rest c (fields ++ [field c])

/-- The closure returned by `New`.  `start` and `finish` are the two readings of
`time.Now()`. -/
def newHandler (rt : Runtime) (options : Options) (skipPaths : PathMap)
    (next : Context → Outcome) (start finish : Time) (c : Context) : Result :=
  let path := c.request.path
  let query := c.request.rawQuery
  match next c with
  | .panicked v c1 => ⟨c1, [], some v⟩
  | .returned c1 =>
    match options.skipFunc with
    | none => ⟨c1, [], some nilDereference⟩
    | some skip =>
      if skip c1 then ⟨c1, [], none⟩
      else if (skipPaths path).isSome then ⟨c1, [], none⟩
      else
        let latency := rt.sub finish start
        let finish := if options.utc then rt.utc finish else finish
        if c1.errors.length > 0 then
          match options.logger with
          | none => ⟨c1, [], some nilDereference⟩
          | some _ => ⟨c1, c1.Errors.map (fun e => ⟨.error, e, []⟩), none⟩
        else
          let fields : List Field :=
            [ ⟨"status", .int c1.status⟩,
              ⟨"method", .string c1.request.method⟩,
              ⟨"path", .string path⟩,
              ⟨"query", .string query⟩,
              ⟨"ip", .string c1.clientIP⟩,
              ⟨"user-agent", .string c1.request.userAgent⟩,
              ⟨"latency", .duration latency⟩,
              ⟨"time", .string (rt.format finish options.timeFormat)⟩ ]
          match appendCustomFields options.customFields c1 fields with
          | none => ⟨c1, [], some nilDereference⟩
          | some fields =>
            match options.logger with
            | none => ⟨c1, [], some nilDereference⟩
            | some _ => ⟨c1, [⟨.info, path, fields⟩], none⟩

/-- Type of the closure returned by `New`. -/
abbrev AccessHandler := (Context → Outcome) → Time → Time → Context → Result

/-- Function `New`.  `Except.error` is the panic of `newOptions`. -/
def New (rt : Runtime) (opts : List (Option OptionFunc)) :
    Except PanicValue AccessHandler :=
  match newOptions opts with
  | .error v => .error v
  | .ok options => .ok (newHandler rt options (buildSkipPaths options.skipPaths))

/-! ## The recovery handler -/

/-- The test of `Recovery` for a broken connection. -/
def isBrokenPipe (rt : Runtime) (err : PanicValue) : Bool :=
  match err with
  | .error (.opError _ (.syscall se)) =>
    stringsContains (rt.toLower se.Error) "broken pipe" ||
      stringsContains (rt.toLower se.Error) "connection reset by peer"
  | _ => false

/-- The closure returned by `Recovery`.  `now` is the reading of `time.Now()`
and `stack` the text of `debug.Stack()`. -/
def recoveryHandler (rt : Runtime) (options : Options)
    (next : Context → Outcome) (now : Time) (stack : String) (c : Context) : Result :=
  match next c with
  | .returned c1 => ⟨c1, [], none⟩
  | .panicked err c1 =>
    let brokenPipe := isBrokenPipe rt err
    let httpRequest := rt.dumpRequest c1.request
    if brokenPipe then
      match options.logger with
      | none => ⟨c1, [], some nilDereference⟩
      | some _ =>
        let record : Record :=
          ⟨.error, c1.request.path, [⟨"error", .any err⟩, ⟨"request", .string httpRequest⟩]⟩
        match err with
        | .value _ => ⟨c1, [record], some notAnError⟩
        | .error e => ⟨(c1.Error e).Abort, [record], none⟩
    else
      let fields : List Field :=
        [ ⟨"time", .time now⟩,
          ⟨"error", .any err⟩,
          ⟨"request", .string httpRequest⟩ ]
      match appendCustomFields options.customFields c1 fields with
      | none => ⟨c1, [], some nilDereference⟩
      | some fields =>
        let fields := if options.stack then fields ++ [⟨"stack", .string stack⟩] else fields
        match options.logger with
        | none => ⟨c1, [], some nilDereference⟩
        | some _ =>
          ⟨c1.AbortWithStatus StatusInternalServerError,
            [⟨.error, "[Recovery from panic]", fields⟩], none⟩

/-- Type of the closure returned by `Recovery`. -/
abbrev RecoveryHandler := (Context → Outcome) → Time → String → Context → Result

/-- Function `Recovery`.  `Except.error` is the panic of `newOptions`. -/
def Recovery (rt : Runtime) (opts : List (Option OptionFunc)) :
    Except PanicValue RecoveryHandler :=
  match newOptions opts with
  | .error v => .error v
  | .ok options => .ok (recoveryHandler rt options)

/-! ## The option vocabulary as data, and the record the text describes -/

/-- The options of the package as data: one constructor per `With...` function,
holding its argument. -/
inductive Setting where
  | timeFormat (format : String)
  | utc (utc : Bool)
  | stack (stack : Bool)
  | skipPaths (skipPaths : List String)
  | zapLogger (logger : Option Logger)
  | customFields (fields : List (Option customFieldFunc))
  | skip (skip : Option skipFunc)

/-- The `Option` a setting stands for: the value returned by the `With...`
function, which is never nil. -/
def Setting.toOption : Setting → Option OptionFunc
  | .timeFormat v => some (WithTimeFormat v)
  | .utc v => some (WithUTC v)
  | .stack v => some (WithStack v)
  | .skipPaths v => some (WithSkipPaths v)
  | .zapLogger v => some (WithZapLogger v)
  | .customFields v => some (WithCustomFields v)
  | .skip v => some (WithSkip v)

def Setting.timeFormat? : Setting → Option String
  | .timeFormat v => some v
  | _ => none

def Setting.utc? : Setting → Option Bool
  | .utc v => some v
  | _ => none

def Setting.stack? : Setting → Option Bool
  | .stack v => some v
  | _ => none

def Setting.skipPaths? : Setting → Option (List String)
  | .skipPaths v => some v
  | _ => none

def Setting.zapLogger? : Setting → Option (Option Logger)
  | .zapLogger v => some v
  | _ => none

def Setting.customFields? : Setting → Option (List (Option customFieldFunc))
  | .customFields v => some v
  | _ => none

def Setting.skip? : Setting → Option (Option skipFunc)
  | .skip v => some v
  | _ => none

/-- The value given by the last setting of the list that sets the field read by
`pick`, or `dflt` if no setting does. -/
def specLast {α : Type} (pick : Setting → Option α) (dflt : α) (settings : List Setting) : α :=
  ((settings.filterMap pick).getLast?).getD dflt

/-- The record described by the text of the specification: every scalar field
holds the value of the last setting that sets it (its default otherwise), and
the providers are the provider lists of all `customFields` settings, in order,
one after the other. -/
def specOptions (settings : List Setting) : Options :=
  { timeFormat := specLast Setting.timeFormat? RFC3339Nano settings
    utc := specLast Setting.utc? false settings
    skipPaths := specLast Setting.skipPaths? [] settings
    logger := specLast Setting.zapLogger? none settings
    customFields := (settings.filterMap Setting.customFields?).flatten
    stack := specLast Setting.stack? false settings
    skipFunc := specLast Setting.skip? (some (fun _ => false)) settings }

/-! ## Concrete data -/

def sampleRuntime : Runtime :=
  { toLower := fun s => ⟨s.data.map Char.toLower⟩
    sub := fun t u => t.nanos - u.nanos
    utc := fun t => { t with loc := "UTC" }
    format := fun t layout => layout ++ " " ++ t.loc
    dumpRequest := fun r => r.method ++ " " ++ r.path }

def sampleLogger : Logger := ⟨1⟩

def sampleContext : Context :=
  { request := ⟨"GET", "/ping", "a=1", "curl"⟩
    clientIP := "10.0.0.1"
    status := 0
    written := false
    errors := []
    aborted := false }

def sampleStart : Time := ⟨1000, "Local"⟩

def sampleFinish : Time := ⟨4500, "Local"⟩

/-- A downstream chain that answers 200 and returns. -/
def sampleNext : Context → Outcome :=
  fun c => .returned { c with status := 200 }

/-- A downstream chain that attaches two errors and returns. -/
def sampleNextErrors : Context → Outcome :=
  fun c => .returned { c with status := 400, errors := [.other "bad id", .other "bad name"] }

/-- A downstream chain that panics with a string. -/
def sampleNextPanic : Context → Outcome :=
  fun c => .panicked (.value "broken pipe") c

/-- A downstream chain that writes a 200 response and then panics. -/
def sampleNextWritten : Context → Outcome :=
  fun c => .panicked (.value "boom") { c with status := 200, written := true }

/-- A network error whose system-call error reports a broken pipe. -/
def sampleBrokenPipe : GoError :=
  .opError "write tcp: write: Broken Pipe" (.syscall ⟨"write", "Broken Pipe"⟩)

/-- A downstream chain that panics on a broken connection. -/
def sampleNextBroken : Context → Outcome :=
  fun c => .panicked (.error sampleBrokenPipe) c

/-- A custom field provider. -/
def sampleProvider : customFieldFunc :=
  fun c => ⟨"custom field1", .string c.clientIP⟩

/-! ## Construction -/

theorem applyOptions_present (fs : List OptionFunc) (options : Options) :
    applyOptions (fs.map some) options = .ok (fs.foldl (fun o f => f o) options) := by
  induction fs generalizing options with
  | nil => rfl
  | cons f rest ih => simp [applyOptions, ih]

theorem applyOptions_nil {opts : List (Option OptionFunc)} (hnil : none ∈ opts)
    (options : Options) : applyOptions opts options = .error nilDereference := by
  induction opts generalizing options with
  | nil => cases hnil
  | cons o rest ih =>
    cases o with
    | none => rfl
    | some f =>
      have hrest : none ∈ rest := by
        cases hnil with
        | tail _ hmem => exact hmem
      simp [applyOptions, ih hrest]

theorem newOptions_eq_ok {opts : List (Option OptionFunc)} {options : Options}
    (h : newOptions opts = .ok options) :
    applyOptions opts defaultOptions = .ok options ∧
      ∃ logger, options.logger = some logger := by
  unfold newOptions at h
  cases happ : applyOptions opts defaultOptions with
  | error v => simp [happ] at h
  | ok o =>
    simp only [happ] at h
    split at h
    · cases h
    · rename_i hl
      injection h with h
      subst h
      refine ⟨rfl, ?_⟩
      cases hlg : o.logger with
      | none => simp [hlg] at hl
      | some logger => exact ⟨logger, rfl⟩

theorem New_eq_ok {rt : Runtime} {opts : List (Option OptionFunc)} {options : Options}
    {h : AccessHandler} (hopt : newOptions opts = .ok options) (hnew : New rt opts = .ok h) :
    h = newHandler rt options (buildSkipPaths options.skipPaths) := by
  unfold New at hnew
  rw [hopt] at hnew
  injection hnew with hnew
  exact hnew.symm

theorem Recovery_eq_ok {rt : Runtime} {opts : List (Option OptionFunc)} {options : Options}
    {h : RecoveryHandler} (hopt : newOptions opts = .ok options)
    (hrec : Recovery rt opts = .ok h) :
    h = recoveryHandler rt options := by
  unfold Recovery at hrec
  rw [hopt] at hrec
  injection hrec with hrec
  exact hrec.symm

/-! ## The map of skipped paths -/

theorem foldl_set_isSome (paths : List String) (m : PathMap) (p : String) :
    ((paths.foldl (fun m path => m.set path true) m) p).isSome = true ↔
      p ∈ paths ∨ (m p).isSome = true := by
  induction paths generalizing m with
  | nil => simp
  | cons q rest ih =>
    rw [List.foldl_cons, ih]
    by_cases hpq : p = q
    · subst hpq
      simp [PathMap.set]
    · simp [PathMap.set, hpq]

theorem buildSkipPaths_isSome (paths : List String) (p : String) :
    ((buildSkipPaths paths) p).isSome = true ↔ p ∈ paths := by
  unfold buildSkipPaths
  rw [foldl_set_isSome]
  simp [PathMap.empty]

/-! ## The loop over the custom field providers -/

theorem appendCustomFields_present (providers : List customFieldFunc) (c : Context)
    (fields : List Field) :
    appendCustomFields (providers.map some) c fields
      = some (fields ++ providers.map (fun p => p c)) := by
  induction providers generalizing fields with
  | nil => simp [appendCustomFields]
  | cons p rest ih => simp [appendCustomFields, ih]

theorem appendCustomFields_eq_none (providers : List (Option customFieldFunc)) (c : Context)
    (fields : List Field) :
    appendCustomFields providers c fields = none ↔ none ∈ providers := by
  induction providers generalizing fields with
  | nil => simp [appendCustomFields]
  | cons p rest ih =>
    cases p with
    | none => simp [appendCustomFields]
    | some f => simp [appendCustomFields, ih]

/-! ## The access-log handler -/

theorem newHandler_info (rt : Runtime) (options : Options) (skipPaths : PathMap)
    (next : Context → Outcome) (start finish : Time) (c c1 : Context)
    (skip : skipFunc) (providers : List customFieldFunc) (logger : Logger)
    (hnext : next c = .returned c1) (hsk : options.skipFunc = some skip)
    (hns : skip c1 = false) (hmem : (skipPaths c.request.path).isSome = false)
    (herr : c1.errors = []) (hprov : options.customFields = providers.map some)
    (hlog : options.logger = some logger) :
    newHandler rt options skipPaths next start finish c
      = ⟨c1, [⟨Level.info, c.request.path,
          [ ⟨"status", .int c1.status⟩,
            ⟨"method", .string c1.request.method⟩,
            ⟨"path", .string c.request.path⟩,
            ⟨"query", .string c.request.rawQuery⟩,
            ⟨"ip", .string c1.clientIP⟩,
            ⟨"user-agent", .string c1.request.userAgent⟩,
            ⟨"latency", .duration (rt.sub finish start)⟩,
            ⟨"time", .string (rt.format (if options.utc then rt.utc finish else finish)
              options.timeFormat)⟩ ] ++ providers.map (fun p => p c1)⟩], none⟩ := by
  simp [newHandler, hnext, hsk, hns, hmem, herr, hlog, hprov, appendCustomFields_present]

theorem buildSkipPaths_not_mem {paths : List String} {p : String} (hp : p ∉ paths) :
    ((buildSkipPaths paths) p).isSome = false := by
  cases hb : ((buildSkipPaths paths) p).isSome with
  | false => rfl
  | true => exact absurd ((buildSkipPaths_isSome _ _).mp hb) hp

/-- Claim C1: for every option list accepted by `newOptions` and every request,
if the path captured before delegation is one of the configured skip paths
(whatever the query string is), or the downstream chain returns and the skip
predicate is true on the context it leaves, the handler returned by `New` makes
no emission call, whatever the status and the accumulated errors are. -/
theorem New_skipped_emits_nothing (rt : Runtime) (opts : List (Option OptionFunc)) (options : Options)
    (h : AccessHandler) (next : Context → Outcome) (start finish : Time) (c : Context)
    (hopt : newOptions opts = .ok options) (hnew : New rt opts = .ok h)
    (hskip : c.request.path ∈ options.skipPaths ∨
      ∃ c1 skip, next c = .returned c1 ∧ options.skipFunc = some skip ∧ skip c1 = true) :
    (h next start finish c).log = [] := by
  rw [New_eq_ok hopt hnew]
  unfold newHandler
  rcases hskip with hpath | ⟨c1, skip, hnext, hsk, htrue⟩
  · have hmem := (buildSkipPaths_isSome options.skipPaths c.request.path).mpr hpath
    cases hn : next c with
    | panicked v c1 => rfl
    | returned c1 =>
      cases hs : options.skipFunc with
      | none => rfl
      | some skip =>
        cases hb : skip c1 <;> simp [hb, hmem]
  · simp [hnext, hsk, htrue]

theorem New_skipped_emits_nothing_witness :
    (sampleContext.request.path ∈ ["/ping", "/skip1"] ∨
      ∃ c1 skip, sampleNextErrors sampleContext = .returned c1 ∧
        (some (fun _ => false) : Option skipFunc) = some skip ∧ skip c1 = true) ∧
    (newHandler sampleRuntime
        { defaultOptions with logger := some sampleLogger, skipPaths := ["/ping", "/skip1"] }
        (buildSkipPaths ["/ping", "/skip1"])
        sampleNextErrors sampleStart sampleFinish sampleContext).log = [] :=
  ⟨Or.inl (by decide),
    New_skipped_emits_nothing sampleRuntime
      [some (WithZapLogger (some sampleLogger)), some (WithSkipPaths ["/ping", "/skip1"])]
      { defaultOptions with logger := some sampleLogger, skipPaths := ["/ping", "/skip1"] }
      _ sampleNextErrors sampleStart sampleFinish sampleContext rfl rfl (Or.inl (by decide))⟩

/-- Claim C2: when the downstream chain returns, the skip predicate is false,
the captured path is not a skip path and the context holds N >= 1 accumulated
errors, the handler returned by `New` makes exactly N emission calls, all at
error level and without fields, the i-th with the message of the i-th error; it
makes no info call, returns without panic, and does the same whatever the list
of custom field providers is (nil entries included), so it calls none of them. -/
theorem New_errors_one_record_each (rt : Runtime) (opts : List (Option OptionFunc)) (options : Options)
    (h : AccessHandler) (next : Context → Outcome) (start finish : Time) (c c1 : Context)
    (skip : skipFunc)
    (hopt : newOptions opts = .ok options) (hnew : New rt opts = .ok h)
    (hnext : next c = .returned c1) (hsk : options.skipFunc = some skip)
    (hns : skip c1 = false) (hpath : c.request.path ∉ options.skipPaths)
    (herr : 1 ≤ c1.errors.length) :
    h next start finish c
        = ⟨c1, c1.errors.map (fun e => ⟨Level.error, e.Error, []⟩), none⟩ ∧
      (h next start finish c).log.length = c1.errors.length ∧
      (∀ i (hi : i < c1.errors.length),
        (h next start finish c).log[i]? = some ⟨Level.error, (c1.errors.get ⟨i, hi⟩).Error, []⟩) ∧
      (∀ r ∈ (h next start finish c).log, r.level = Level.error ∧ r.fields = []) ∧
      (∀ providers : List (Option customFieldFunc),
        newHandler rt { options with customFields := providers }
            (buildSkipPaths options.skipPaths) next start finish c
          = h next start finish c) := by
  obtain ⟨_, logger, hlog⟩ := newOptions_eq_ok hopt
  have hmem : ((buildSkipPaths options.skipPaths) c.request.path).isSome = false := by
    cases hb : ((buildSkipPaths options.skipPaths) c.request.path).isSome with
    | false => rfl
    | true => exact absurd ((buildSkipPaths_isSome _ _).mp hb) hpath
  have hpos : 0 < c1.errors.length := herr
  have key : ∀ providers : List (Option customFieldFunc),
      newHandler rt { options with customFields := providers }
          (buildSkipPaths options.skipPaths) next start finish c
        = ⟨c1, c1.errors.map (fun e => ⟨Level.error, e.Error, []⟩), none⟩ := by
    intro providers
    simp [newHandler, hnext, hsk, hns, hmem, hpos, hlog, Context.Errors]
  have hres : h next start finish c
      = ⟨c1, c1.errors.map (fun e => ⟨Level.error, e.Error, []⟩), none⟩ := by
    rw [New_eq_ok hopt hnew]
    exact key options.customFields
  refine ⟨hres, ?_, ?_, ?_, ?_⟩
  · rw [hres]
    simp
  · intro i hi
    rw [hres]
    simp [List.getElem?_eq_getElem hi]
  · intro r hr
    rw [hres] at hr
    simp only [List.mem_map] at hr
    obtain ⟨e, _, rfl⟩ := hr
    exact ⟨rfl, rfl⟩
  · intro providers
    rw [hres]
    exact key providers

theorem New_errors_one_record_each_witness :
    (newHandler sampleRuntime
        { defaultOptions with logger := some sampleLogger, customFields := [none] }
        (buildSkipPaths []) sampleNextErrors sampleStart sampleFinish sampleContext).log
      = [⟨Level.error, "bad id", []⟩, ⟨Level.error, "bad name", []⟩] :=
  congrArg Result.log
    (New_errors_one_record_each sampleRuntime
      [some (WithZapLogger (some sampleLogger)), some (WithCustomFields [none])]
      { defaultOptions with logger := some sampleLogger, customFields := [none] }
      _ sampleNextErrors sampleStart sampleFinish sampleContext
      { sampleContext with status := 400, errors := [.other "bad id", .other "bad name"] }
      (fun _ => false) rfl rfl rfl rfl rfl (by decide) (by decide)).1

/-- Claim C3, as stated, fails: with an accepted option list that holds a nil
custom field provider, a request that is not skipped and has no accumulated
error gets no record at all: the handler returned by `New` panics on the nil
call before it reaches the logger. -/
theorem New_nil_provider_no_record :
    ∃ h : AccessHandler,
      New sampleRuntime
        [some (WithZapLogger (some sampleLogger)), some (WithCustomFields [none])] = .ok h ∧
      newOptions [some (WithZapLogger (some sampleLogger)), some (WithCustomFields [none])]
        = .ok { defaultOptions with logger := some sampleLogger, customFields := [none] } ∧
      sampleNext sampleContext = .returned { sampleContext with status := 200 } ∧
      defaultOptions.skipFunc = some (fun _ => false) ∧
      sampleContext.request.path ∉ defaultOptions.skipPaths ∧
      ({ sampleContext with status := 200 } : Context).errors = [] ∧
      h sampleNext sampleStart sampleFinish sampleContext
        = ⟨{ sampleContext with status := 200 }, [], some nilDereference⟩ :=
  ⟨_, rfl, rfl, rfl, rfl, by decide, rfl, rfl⟩

/-- Claim C3, amended: when the downstream chain returns, the skip predicate is
false, the captured path is not a skip path, no error was accumulated and every
configured provider is present, the handler returned by `New` makes exactly one
emission call, at info level, whose fields are status, method, path, query, ip,
user-agent, latency, time (path and query as captured before delegation)
followed by the field of each provider in registration order: 8 + k fields. -/
theorem New_info_record (rt : Runtime) (opts : List (Option OptionFunc)) (options : Options)
    (h : AccessHandler) (next : Context → Outcome) (start finish : Time) (c c1 : Context)
    (skip : skipFunc) (providers : List customFieldFunc)
    (hopt : newOptions opts = .ok options) (hnew : New rt opts = .ok h)
    (hnext : next c = .returned c1) (hsk : options.skipFunc = some skip)
    (hns : skip c1 = false) (hpath : c.request.path ∉ options.skipPaths)
    (herr : c1.errors = []) (hprov : options.customFields = providers.map some) :
    ∃ fields : List Field,
      h next start finish c = ⟨c1, [⟨Level.info, c.request.path, fields⟩], none⟩ ∧
      fields =
        [ ⟨"status", .int c1.status⟩,
          ⟨"method", .string c1.request.method⟩,
          ⟨"path", .string c.request.path⟩,
          ⟨"query", .string c.request.rawQuery⟩,
          ⟨"ip", .string c1.clientIP⟩,
          ⟨"user-agent", .string c1.request.userAgent⟩,
          ⟨"latency", .duration (rt.sub finish start)⟩,
          ⟨"time", .string (rt.format (if options.utc then rt.utc finish else finish)
            options.timeFormat)⟩ ] ++ providers.map (fun p => p c1) ∧
      fields.length = 8 + providers.length := by
  obtain ⟨_, logger, hlog⟩ := newOptions_eq_ok hopt
  refine ⟨_, ?_, rfl, ?_⟩
  · rw [New_eq_ok hopt hnew]
    exact newHandler_info rt options _ next start finish c c1 skip providers logger
      hnext hsk hns (buildSkipPaths_not_mem hpath) herr hprov hlog
  · simp only [List.length_append, List.length_cons, List.length_nil, List.length_map]

theorem New_info_record_witness :
    ∃ fields : List Field,
      newHandler sampleRuntime
          { defaultOptions with logger := some sampleLogger, customFields := [some sampleProvider] }
          (buildSkipPaths []) sampleNext sampleStart sampleFinish sampleContext
        = ⟨{ sampleContext with status := 200 }, [⟨Level.info, "/ping", fields⟩], none⟩ ∧
      fields =
        [ ⟨"status", .int 200⟩,
          ⟨"method", .string "GET"⟩,
          ⟨"path", .string "/ping"⟩,
          ⟨"query", .string "a=1"⟩,
          ⟨"ip", .string "10.0.0.1"⟩,
          ⟨"user-agent", .string "curl"⟩,
          ⟨"latency", .duration (sampleRuntime.sub sampleFinish sampleStart)⟩,
          ⟨"time", .string (sampleRuntime.format
            (if false then sampleRuntime.utc sampleFinish else sampleFinish) RFC3339Nano)⟩ ]
          ++ [sampleProvider].map (fun p => p { sampleContext with status := 200 }) ∧
      fields.length = 8 + [sampleProvider].length :=
  New_info_record sampleRuntime
    [some (WithZapLogger (some sampleLogger)), some (WithCustomFields [some sampleProvider])]
    { defaultOptions with logger := some sampleLogger, customFields := [some sampleProvider] }
    _ sampleNext sampleStart sampleFinish sampleContext { sampleContext with status := 200 }
    (fun _ => false) [sampleProvider] rfl rfl rfl rfl rfl (by decide) rfl rfl

/-- Claim C9: in the record emitted for a request that is not skipped and has
no accumulated error, the latency field is `Sub` of the reading taken after
delegation and the reading taken before it, and the time field is the later
reading formatted with the configured layout, converted with `UTC` first when
the UTC flag is set and unconverted when it is not; the latency field is the
same for either value of the UTC flag. -/
theorem New_latency_and_time (rt : Runtime) (opts : List (Option OptionFunc)) (options : Options)
    (h : AccessHandler) (next : Context → Outcome) (start finish : Time) (c c1 : Context)
    (skip : skipFunc) (providers : List customFieldFunc)
    (hopt : newOptions opts = .ok options) (hnew : New rt opts = .ok h)
    (hnext : next c = .returned c1) (hsk : options.skipFunc = some skip)
    (hns : skip c1 = false) (hpath : c.request.path ∉ options.skipPaths)
    (herr : c1.errors = []) (hprov : options.customFields = providers.map some) :
    ∃ r : Record,
      (h next start finish c).log = [r] ∧
      r.fields[6]? = some ⟨"latency", .duration (rt.sub finish start)⟩ ∧
      (options.utc = true →
        r.fields[7]? = some ⟨"time", .string (rt.format (rt.utc finish) options.timeFormat)⟩) ∧
      (options.utc = false →
        r.fields[7]? = some ⟨"time", .string (rt.format finish options.timeFormat)⟩) ∧
      (∀ utc : Bool, ∃ r2 : Record,
        (newHandler rt { options with utc := utc } (buildSkipPaths options.skipPaths)
            next start finish c).log = [r2] ∧
          r2.fields[6]? = some ⟨"latency", .duration (rt.sub finish start)⟩) := by
  obtain ⟨_, logger, hlog⟩ := newOptions_eq_ok hopt
  rw [New_eq_ok hopt hnew]
  rw [newHandler_info rt options _ next start finish c c1 skip providers logger
    hnext hsk hns (buildSkipPaths_not_mem hpath) herr hprov hlog]
  refine ⟨_, rfl, ?_, ?_, ?_, ?_⟩
  · simp
  · intro hutc
    simp [hutc]
  · intro hutc
    simp [hutc]
  · intro utc
    rw [newHandler_info rt { options with utc := utc } _ next start finish c c1 skip providers
      logger hnext hsk hns (buildSkipPaths_not_mem hpath) herr hprov hlog]
    exact ⟨_, rfl, by simp⟩

theorem New_latency_and_time_witness :
    ∃ r : Record,
      (newHandler sampleRuntime
          { defaultOptions with logger := some sampleLogger, utc := true }
          (buildSkipPaths []) sampleNext sampleStart sampleFinish sampleContext).log = [r] ∧
      r.fields[6]? = some ⟨"latency", .duration (sampleRuntime.sub sampleFinish sampleStart)⟩ ∧
      (true = true →
        r.fields[7]? = some ⟨"time", .string
          (sampleRuntime.format (sampleRuntime.utc sampleFinish) RFC3339Nano)⟩) ∧
      (true = false →
        r.fields[7]? = some ⟨"time", .string
          (sampleRuntime.format sampleFinish RFC3339Nano)⟩) ∧
      (∀ utc : Bool, ∃ r2 : Record,
        (newHandler sampleRuntime
            { defaultOptions with logger := some sampleLogger, utc := utc }
            (buildSkipPaths []) sampleNext sampleStart sampleFinish sampleContext).log = [r2] ∧
          r2.fields[6]? = some ⟨"latency",
            .duration (sampleRuntime.sub sampleFinish sampleStart)⟩) :=
  New_latency_and_time sampleRuntime
    [some (WithZapLogger (some sampleLogger)), some (WithUTC true)]
    { defaultOptions with logger := some sampleLogger, utc := true }
    _ sampleNext sampleStart sampleFinish sampleContext { sampleContext with status := 200 }
    (fun _ => false) [] rfl rfl rfl rfl rfl (by decide) rfl rfl

/-- Claim C10, as stated, fails: an option list that leaves a logger present
but sets a nil skip predicate, or a nil custom field provider, is accepted by
`New`, and the handler it returns panics on a request whose downstream chain
returns normally. -/
theorem New_nil_callback_faults :
    (∃ h : AccessHandler,
      New sampleRuntime
        [some (WithZapLogger (some sampleLogger)), some (WithSkip none)] = .ok h ∧
      sampleNext sampleContext = .returned { sampleContext with status := 200 } ∧
      (h sampleNext sampleStart sampleFinish sampleContext).fault = some nilDereference) ∧
    (∃ h : AccessHandler,
      New sampleRuntime
        [some (WithZapLogger (some sampleLogger)), some (WithCustomFields [none])] = .ok h ∧
      sampleNext sampleContext = .returned { sampleContext with status := 200 } ∧
      (h sampleNext sampleStart sampleFinish sampleContext).fault = some nilDereference) :=
  ⟨⟨_, rfl, rfl, rfl⟩, ⟨_, rfl, rfl, rfl⟩⟩

/-- Claim C10, amended: for every option list accepted by `newOptions` and every
request whose downstream chain returns normally, the handler returned by `New`
panics exactly when the skip predicate is nil, or the request is not skipped,
has no accumulated error and some custom field provider is nil; in particular
it does not panic when the skip predicate and every provider are present. -/
theorem New_fault_iff (rt : Runtime) (opts : List (Option OptionFunc)) (options : Options)
    (h : AccessHandler) (next : Context → Outcome) (start finish : Time) (c c1 : Context)
    (hopt : newOptions opts = .ok options) (hnew : New rt opts = .ok h)
    (hnext : next c = .returned c1) :
    ((h next start finish c).fault ≠ none ↔
      (options.skipFunc = none ∨
        ∃ skip, options.skipFunc = some skip ∧ skip c1 = false ∧
          c.request.path ∉ options.skipPaths ∧ c1.errors = [] ∧
          none ∈ options.customFields)) ∧
    (∀ (skip : skipFunc) (providers : List customFieldFunc),
      options.skipFunc = some skip → options.customFields = providers.map some →
      (h next start finish c).fault = none) := by
  obtain ⟨_, logger, hlog⟩ := newOptions_eq_ok hopt
  rw [New_eq_ok hopt hnew]
  have main : (newHandler rt options (buildSkipPaths options.skipPaths)
        next start finish c).fault ≠ none ↔
      (options.skipFunc = none ∨
        ∃ skip, options.skipFunc = some skip ∧ skip c1 = false ∧
          c.request.path ∉ options.skipPaths ∧ c1.errors = [] ∧
          none ∈ options.customFields) := by
    cases hsk : options.skipFunc with
    | none => simp [newHandler, hnext, hsk]
    | some skip =>
      cases hb : skip c1 with
      | true => simp [newHandler, hnext, hsk, hb]
      | false =>
        by_cases hp : c.request.path ∈ options.skipPaths
        · have hmem := (buildSkipPaths_isSome options.skipPaths c.request.path).mpr hp
          simp [newHandler, hnext, hsk, hb, hmem, hp]
        · have hmem := buildSkipPaths_not_mem hp
          cases he : c1.errors with
          | cons e es => simp [newHandler, hnext, hsk, hb, hmem, he, hlog]
          | nil =>
            cases ha : appendCustomFields options.customFields c1
                [ ⟨"status", .int c1.status⟩,
                  ⟨"method", .string c1.request.method⟩,
                  ⟨"path", .string c.request.path⟩,
                  ⟨"query", .string c.request.rawQuery⟩,
                  ⟨"ip", .string c1.clientIP⟩,
                  ⟨"user-agent", .string c1.request.userAgent⟩,
                  ⟨"latency", .duration (rt.sub finish start)⟩,
                  ⟨"time", .string (rt.format (if options.utc then rt.utc finish else finish)
                    options.timeFormat)⟩ ] with
            | none =>
              have hin := (appendCustomFields_eq_none _ _ _).mp ha
              simp [newHandler, hnext, hsk, hb, hmem, he, hlog, ha, hp, hin]
            | some fields =>
              have hin : none ∉ options.customFields := by
                intro hc
                rw [(appendCustomFields_eq_none _ _ _).mpr hc] at ha
                cases ha
              simp [newHandler, hnext, hsk, hb, hmem, he, hlog, ha, hp, hin]
  refine ⟨main, ?_⟩
  intro skip providers hsk hprov
  by_contra hne
  rcases main.mp hne with hnone | ⟨_, _, _, _, _, hin⟩
  · rw [hsk] at hnone
    cases hnone
  · rw [hprov] at hin
    simp at hin

theorem New_fault_iff_witness :
    (newHandler sampleRuntime
        { defaultOptions with logger := some sampleLogger, customFields := [some sampleProvider] }
        (buildSkipPaths []) sampleNext sampleStart sampleFinish sampleContext).fault = none :=
  (New_fault_iff sampleRuntime
    [some (WithZapLogger (some sampleLogger)), some (WithCustomFields [some sampleProvider])]
    { defaultOptions with logger := some sampleLogger, customFields := [some sampleProvider] }
    _ sampleNext sampleStart sampleFinish sampleContext { sampleContext with status := 200 }
    rfl rfl rfl).2 (fun _ => false) [sampleProvider] rfl rfl

/-! ## The configuration builder -/

theorem getLast?_cons_getD {α : Type} (v d : α) (l : List α) :
    ((v :: l).getLast?).getD d = (l.getLast?).getD v := by
  cases l with
  | nil => rfl
  | cons w l =>
    rw [List.getLast?_cons_cons]
    cases hw : (w :: l).getLast? with
    | none => simp at hw
    | some x => rfl

theorem specLast_cons {α : Type} (pick : Setting → Option α) (d : α) (s : Setting)
    (settings : List Setting) :
    specLast pick d (s :: settings) = specLast pick ((pick s).getD d) settings := by
  unfold specLast
  cases hp : pick s with
  | none => simp [List.filterMap_cons, hp]
  | some v =>
    rw [List.filterMap_cons, hp]
    exact getLast?_cons_getD v d _

theorem applyOptions_settings (settings : List Setting) (options : Options) :
    applyOptions (settings.map Setting.toOption) options = .ok
      { timeFormat := specLast Setting.timeFormat? options.timeFormat settings
        utc := specLast Setting.utc? options.utc settings
        skipPaths := specLast Setting.skipPaths? options.skipPaths settings
        logger := specLast Setting.zapLogger? options.logger settings
        customFields :=
          options.customFields ++ (settings.filterMap Setting.customFields?).flatten
        stack := specLast Setting.stack? options.stack settings
        skipFunc := specLast Setting.skip? options.skipFunc settings } := by
  induction settings generalizing options with
  | nil => simp [applyOptions, specLast]
  | cons s rest ih =>
    simp only [specLast_cons]
    cases s <;>
      simp [applyOptions, ih, Setting.toOption, WithTimeFormat, WithUTC, WithStack,
        WithSkipPaths, WithZapLogger, WithCustomFields, WithSkip, Setting.timeFormat?,
        Setting.utc?, Setting.stack?, Setting.skipPaths?, Setting.zapLogger?,
        Setting.customFields?, Setting.skip?, List.filterMap_cons]

/-- Claim C4, as stated, fails: a list that holds a nil option makes `newOptions`,
and so `New` and `Recovery`, panic in the loop over the options although the
options before it have left a logger present. -/
theorem newOptions_nil_option_halts :
    newOptions [some (WithZapLogger (some sampleLogger)), none] = .error nilDereference ∧
    New sampleRuntime [some (WithZapLogger (some sampleLogger)), none]
      = .error nilDereference ∧
    Recovery sampleRuntime [some (WithZapLogger (some sampleLogger)), none]
      = .error nilDereference ∧
    applyOptions [some (WithZapLogger (some sampleLogger))] defaultOptions
      = .ok { defaultOptions with logger := some sampleLogger } ∧
    newOptions [some (WithZapLogger (some sampleLogger))]
      = .ok { defaultOptions with logger := some sampleLogger } :=
  ⟨rfl, rfl, rfl, rfl, rfl⟩

/-- Claim C4, amended: for every list of options none of which is nil,
`newOptions` panics exactly when the logger is nil after all options have been
applied in order; then `New` and `Recovery` panic too and return no handler;
when a logger is present `newOptions` returns the record built from the
options, and `New` and `Recovery` return a handler.  A list that holds a nil
option makes all three panic in the loop, whatever the logger is. -/
theorem newOptions_fatal_iff (rt : Runtime) (opts : List (Option OptionFunc)) :
    (none ∈ opts →
      newOptions opts = .error nilDereference ∧
      New rt opts = .error nilDereference ∧
      Recovery rt opts = .error nilDereference) ∧
    (∀ fs : List OptionFunc, opts = fs.map some →
      ((∃ v, newOptions opts = .error v) ↔
        (fs.foldl (fun o f => f o) defaultOptions).logger = none) ∧
      ((fs.foldl (fun o f => f o) defaultOptions).logger = none →
        newOptions opts = .error (.value "zap log err!") ∧
        New rt opts = .error (.value "zap log err!") ∧
        Recovery rt opts = .error (.value "zap log err!")) ∧
      (∀ logger : Logger, (fs.foldl (fun o f => f o) defaultOptions).logger = some logger →
        newOptions opts = .ok (fs.foldl (fun o f => f o) defaultOptions) ∧
        New rt opts = .ok (newHandler rt (fs.foldl (fun o f => f o) defaultOptions)
          (buildSkipPaths (fs.foldl (fun o f => f o) defaultOptions).skipPaths)) ∧
        Recovery rt opts
          = .ok (recoveryHandler rt (fs.foldl (fun o f => f o) defaultOptions)))) := by
  constructor
  · intro hnil
    have hnew : newOptions opts = .error nilDereference := by
      simp [newOptions, applyOptions_nil hnil]
    exact ⟨hnew, by simp [New, hnew], by simp [Recovery, hnew]⟩
  · intro fs hfs
    subst hfs
    have hnone : (fs.foldl (fun o f => f o) defaultOptions).logger = none →
        newOptions (fs.map some) = .error (.value "zap log err!") := by
      intro hl
      simp [newOptions, applyOptions_present, hl]
    have hsome : ∀ logger : Logger,
        (fs.foldl (fun o f => f o) defaultOptions).logger = some logger →
        newOptions (fs.map some) = .ok (fs.foldl (fun o f => f o) defaultOptions) := by
      intro logger hl
      simp [newOptions, applyOptions_present, hl]
    refine ⟨⟨?_, fun hl => ⟨_, hnone hl⟩⟩, ?_, ?_⟩
    · rintro ⟨v, hv⟩
      cases hl : (fs.foldl (fun o f => f o) defaultOptions).logger with
      | none => rfl
      | some logger =>
        rw [hsome logger hl] at hv
        cases hv
    · intro hl
      refine ⟨hnone hl, ?_, ?_⟩
      · simp [New, hnone hl]
      · simp [Recovery, hnone hl]
    · intro logger hl
      refine ⟨hsome logger hl, ?_, ?_⟩
      · simp [New, hsome logger hl]
      · simp [Recovery, hsome logger hl]

theorem newOptions_fatal_iff_witness :
    newOptions [some (WithZapLogger (some sampleLogger)), some (WithZapLogger none)]
      = .error (.value "zap log err!") ∧
    New sampleRuntime [some (WithZapLogger (some sampleLogger)), some (WithZapLogger none)]
      = .error (.value "zap log err!") ∧
    Recovery sampleRuntime [some (WithZapLogger (some sampleLogger)), some (WithZapLogger none)]
      = .error (.value "zap log err!") :=
  ((newOptions_fatal_iff sampleRuntime
    [some (WithZapLogger (some sampleLogger)), some (WithZapLogger none)]).2
      [WithZapLogger (some sampleLogger), WithZapLogger none] rfl).2.1 rfl

/-- Claim C5: for every list of options built with the `With...` functions whose
logger is present once all are applied, `newOptions` returns the record in which
time format, UTC flag, stack flag, skip paths, logger and skip predicate hold
the value of the last option setting them, or the default (RFC3339Nano, false,
false, empty, nil, constant false) when none does, and in which the providers
are the concatenation, in option order, of the lists of all `WithCustomFields`;
that record is what the loop over the options leaves, logger present or not. -/
theorem newOptions_last_wins (settings : List Setting) (logger : Logger)
    (hlog : specLast Setting.zapLogger? none settings = some logger) :
    newOptions (settings.map Setting.toOption) = .ok (specOptions settings) ∧
    applyOptions (settings.map Setting.toOption) defaultOptions
      = .ok (specOptions settings) ∧
    specOptions [] = defaultOptions ∧
    defaultOptions.timeFormat = "2006-01-02T15:04:05.999999999Z07:00" ∧
    defaultOptions.utc = false ∧ defaultOptions.skipPaths = [] ∧
    defaultOptions.stack = false ∧ defaultOptions.customFields = [] ∧
    (∃ skip, defaultOptions.skipFunc = some skip ∧ ∀ c, skip c = false) := by
  have happ : applyOptions (settings.map Setting.toOption) defaultOptions
      = .ok (specOptions settings) := by
    rw [applyOptions_settings]
    simp [specOptions, defaultOptions]
  refine ⟨?_, happ, rfl, rfl, rfl, rfl, rfl, rfl, ⟨_, rfl, fun _ => rfl⟩⟩
  have hl : (specOptions settings).logger = some logger := hlog
  simp [newOptions, happ, hl]

theorem newOptions_last_wins_witness :
    newOptions ([Setting.zapLogger none, .timeFormat "a", .customFields [some sampleProvider],
        .zapLogger (some sampleLogger), .utc true, .timeFormat "b", .customFields [none],
        .skipPaths ["/skip1"], .utc false].map Setting.toOption)
      = .ok
        { timeFormat := "b"
          utc := false
          skipPaths := ["/skip1"]
          logger := some sampleLogger
          customFields := [some sampleProvider, none]
          stack := false
          skipFunc := some (fun _ => false) } :=
  (newOptions_last_wins [Setting.zapLogger none, .timeFormat "a",
    .customFields [some sampleProvider], .zapLogger (some sampleLogger), .utc true,
    .timeFormat "b", .customFields [none], .skipPaths ["/skip1"], .utc false]
    sampleLogger rfl).1

/-! ## The recovery handler -/

theorem Recovery_ok_elim {rt : Runtime} {opts : List (Option OptionFunc)} {h : RecoveryHandler}
    (hrec : Recovery rt opts = .ok h) :
    ∃ options, newOptions opts = .ok options ∧ h = recoveryHandler rt options := by
  cases hopt : newOptions opts with
  | error msg => simp [Recovery, hopt] at hrec
  | ok options => exact ⟨options, rfl, Recovery_eq_ok hopt hrec⟩

theorem AbortWithStatus_500 (c : Context) :
    c.AbortWithStatus StatusInternalServerError =
      { c with status := if c.written then c.status else 500
               written := true
               aborted := true } := by
  by_cases hs : c.status = 500 <;> cases hw : c.written <;>
    simp [Context.AbortWithStatus, Context.Status, Context.WriteHeaderNow, Context.Abort,
      StatusInternalServerError, hs, hw]

/-- Claim C6, as stated, fails: with an accepted option list that holds a nil
custom field provider, a panic of the downstream chain that is not a broken
connection makes the handler returned by `Recovery` panic itself, with no
emission call and no status 500; and with no provider at all, when the
downstream chain has written a 200 response before it panics, the status stays
200. -/
theorem Recovery_generic_fault_fails :
    (∃ h : RecoveryHandler,
      Recovery sampleRuntime
        [some (WithZapLogger (some sampleLogger)), some (WithCustomFields [none])] = .ok h ∧
      sampleNextPanic sampleContext = .panicked (.value "broken pipe") sampleContext ∧
      isBrokenPipe sampleRuntime (.value "broken pipe") = false ∧
      h sampleNextPanic sampleFinish "" sampleContext
        = ⟨sampleContext, [], some nilDereference⟩ ∧
      sampleContext.status = 0) ∧
    (∃ h : RecoveryHandler,
      Recovery sampleRuntime [some (WithZapLogger (some sampleLogger))] = .ok h ∧
      sampleNextWritten sampleContext
        = .panicked (.value "boom") { sampleContext with status := 200, written := true } ∧
      isBrokenPipe sampleRuntime (.value "boom") = false ∧
      (h sampleNextWritten sampleFinish "" sampleContext).ctx.status = 200 ∧
      (h sampleNextWritten sampleFinish "" sampleContext).fault = none) :=
  ⟨⟨_, rfl, rfl, rfl, rfl, rfl⟩, ⟨_, rfl, rfl, rfl, rfl, rfl⟩⟩

/-- Claim C6, amended: when the downstream chain panics with a value that is not
a network-operation error whose system-call error text contains, in lower case,
"broken pipe" or "connection reset by peer" (so also for a plain value whose
text is "broken pipe"), and every configured provider is present, the handler
returned by `Recovery` returns without panic, aborts, sets status 500 unless the
response has already been written (then the status stays as it is), and makes
exactly one emission call, at error level, with message "[Recovery from panic]"
and fields time, error, request, one per provider in registration order, then
stack exactly when the stack flag is set. -/
theorem Recovery_generic_fault (rt : Runtime) (opts : List (Option OptionFunc))
    (options : Options)
    (h : RecoveryHandler) (next : Context → Outcome) (now : Time) (stack : String)
    (c c1 : Context) (err : PanicValue) (providers : List customFieldFunc)
    (hopt : newOptions opts = .ok options) (hrec : Recovery rt opts = .ok h)
    (hnext : next c = .panicked err c1)
    (hno : ∀ text se, err = .error (.opError text (.syscall se)) →
      stringsContains (rt.toLower se.Error) "broken pipe" = false ∧
      stringsContains (rt.toLower se.Error) "connection reset by peer" = false)
    (hprov : options.customFields = providers.map some) :
    h next now stack c =
        ⟨{ c1 with status := if c1.written then c1.status else 500
                   written := true
                   aborted := true },
          [⟨Level.error, "[Recovery from panic]",
            [ ⟨"time", .time now⟩,
              ⟨"error", .any err⟩,
              ⟨"request", .string (rt.dumpRequest c1.request)⟩ ]
              ++ providers.map (fun p => p c1)
              ++ (if options.stack then [⟨"stack", .string stack⟩] else [])⟩],
          none⟩ ∧
      (c1.written = false → (h next now stack c).ctx.status = 500) ∧
      (c1.written = true → (h next now stack c).ctx.status = c1.status) ∧
      (h next now stack c).ctx.aborted = true := by
  obtain ⟨_, logger, hlog⟩ := newOptions_eq_ok hopt
  rw [Recovery_eq_ok hopt hrec]
  have hbp : isBrokenPipe rt err = false := by
    unfold isBrokenPipe
    split
    · rename_i text se
      obtain ⟨h1, h2⟩ := hno _ se rfl
      simp [h1, h2]
    · rfl
  have hres : recoveryHandler rt options next now stack c =
      ⟨{ c1 with status := if c1.written then c1.status else 500
                 written := true
                 aborted := true },
        [⟨Level.error, "[Recovery from panic]",
          [ ⟨"time", .time now⟩,
            ⟨"error", .any err⟩,
            ⟨"request", .string (rt.dumpRequest c1.request)⟩ ]
            ++ providers.map (fun p => p c1)
            ++ (if options.stack then [⟨"stack", .string stack⟩] else [])⟩],
        none⟩ := by
    cases hst : options.stack <;>
      simp [recoveryHandler, hnext, hbp, hprov, appendCustomFields_present, hlog, hst,
        AbortWithStatus_500]
  rw [hres]
  refine ⟨rfl, ?_, ?_, rfl⟩
  · intro hw
    simp [hw]
  · intro hw
    simp [hw]

theorem Recovery_generic_fault_witness :
    recoveryHandler sampleRuntime
        { defaultOptions with logger := some sampleLogger, stack := true,
                              customFields := [some sampleProvider] }
        sampleNextPanic sampleFinish "goroutine 1 [running]" sampleContext =
      ⟨{ sampleContext with status := if sampleContext.written then sampleContext.status else 500
                            written := true
                            aborted := true },
        [⟨Level.error, "[Recovery from panic]",
          [ ⟨"time", .time sampleFinish⟩,
            ⟨"error", .any (.value "broken pipe")⟩,
            ⟨"request", .string (sampleRuntime.dumpRequest sampleContext.request)⟩ ]
            ++ [sampleProvider].map (fun p => p sampleContext)
            ++ (if true then [⟨"stack", .string "goroutine 1 [running]"⟩] else [])⟩],
        none⟩ :=
  (Recovery_generic_fault sampleRuntime
    [some (WithZapLogger (some sampleLogger)), some (WithStack true),
      some (WithCustomFields [some sampleProvider])]
    { defaultOptions with logger := some sampleLogger, stack := true,
                          customFields := [some sampleProvider] }
    _ sampleNextPanic sampleFinish "goroutine 1 [running]" sampleContext sampleContext
    (.value "broken pipe") [sampleProvider] rfl rfl rfl
    (fun _ _ he => PanicValue.noConfusion he) rfl).1

/-- Claim C7: when the downstream chain panics with a network-operation error
whose system-call error text contains, in lower case, "broken pipe" or
"connection reset by peer", the handler returned by `Recovery` makes exactly one
emission call, at error level, with the request path as message and the fields
error and request, attaches the error to the context, aborts, leaves the
response status as it was, and returns without panic; the result is the same
for every stack flag and every list of providers (nil entries included). -/
theorem Recovery_broken_connection (rt : Runtime) (opts : List (Option OptionFunc)) (options : Options)
    (h : RecoveryHandler) (next : Context → Outcome) (now : Time) (stack : String)
    (c c1 : Context) (text : String) (se : SyscallError)
    (hopt : newOptions opts = .ok options) (hrec : Recovery rt opts = .ok h)
    (hnext : next c = .panicked (.error (.opError text (.syscall se))) c1)
    (hbp : stringsContains (rt.toLower se.Error) "broken pipe" = true ∨
      stringsContains (rt.toLower se.Error) "connection reset by peer" = true) :
    h next now stack c =
        ⟨{ c1 with errors := c1.errors ++ [.opError text (.syscall se)], aborted := true },
          [⟨Level.error, c1.request.path,
            [ ⟨"error", .any (.error (.opError text (.syscall se)))⟩,
              ⟨"request", .string (rt.dumpRequest c1.request)⟩ ]⟩],
          none⟩ ∧
      (h next now stack c).ctx.status = c1.status ∧
      (∀ (stackFlag : Bool) (providers : List (Option customFieldFunc)) (now2 : Time)
          (stack2 : String),
        recoveryHandler rt { options with stack := stackFlag, customFields := providers }
            next now2 stack2 c
          = h next now stack c) := by
  obtain ⟨_, logger, hlog⟩ := newOptions_eq_ok hopt
  rw [Recovery_eq_ok hopt hrec]
  have hb : isBrokenPipe rt (.error (.opError text (.syscall se))) = true := by
    simp only [isBrokenPipe, Bool.or_eq_true]
    exact hbp
  have key : ∀ (stackFlag : Bool) (providers : List (Option customFieldFunc)) (now2 : Time)
      (stack2 : String),
      recoveryHandler rt { options with stack := stackFlag, customFields := providers }
          next now2 stack2 c
        = ⟨{ c1 with errors := c1.errors ++ [.opError text (.syscall se)], aborted := true },
          [⟨Level.error, c1.request.path,
            [ ⟨"error", .any (.error (.opError text (.syscall se)))⟩,
              ⟨"request", .string (rt.dumpRequest c1.request)⟩ ]⟩],
          none⟩ := by
    intro stackFlag providers now2 stack2
    simp [recoveryHandler, hnext, hb, hlog, Context.Error, Context.Abort]
  have hres := key options.stack options.customFields now stack
  refine ⟨hres, ?_, ?_⟩
  · rw [hres]
  · intro stackFlag providers now2 stack2
    rw [hres]
    exact key stackFlag providers now2 stack2

theorem Recovery_broken_connection_witness :
    (stringsContains (sampleRuntime.toLower (SyscallError.Error ⟨"write", "Broken Pipe"⟩))
        "broken pipe" = true ∨
      stringsContains (sampleRuntime.toLower (SyscallError.Error ⟨"write", "Broken Pipe"⟩))
        "connection reset by peer" = true) ∧
    recoveryHandler sampleRuntime
        { defaultOptions with logger := some sampleLogger, stack := true,
                              customFields := [none] }
        sampleNextBroken sampleFinish "goroutine 1 [running]" sampleContext =
      ⟨{ sampleContext with errors := [sampleBrokenPipe], aborted := true },
        [⟨Level.error, "/ping",
          [ ⟨"error", .any (.error sampleBrokenPipe)⟩,
            ⟨"request", .string (sampleRuntime.dumpRequest sampleContext.request)⟩ ]⟩],
        none⟩ :=
  ⟨Or.inl (by decide),
    (Recovery_broken_connection sampleRuntime
      [some (WithZapLogger (some sampleLogger)), some (WithStack true), some (WithCustomFields [none])]
      { defaultOptions with logger := some sampleLogger, stack := true, customFields := [none] }
      _ sampleNextBroken sampleFinish "goroutine 1 [running]" sampleContext sampleContext
      "write tcp: write: Broken Pipe" ⟨"write", "Broken Pipe"⟩ rfl rfl rfl
      (Or.inl (by decide))).1⟩

/-- Claim C8: for every option list accepted by `Recovery` and every request
whose downstream chain returns without panic, the handler returned by
`Recovery` makes no emission call, returns without panic and leaves the
context, status, accumulated errors and aborted flag included, exactly as the
downstream chain left it; this holds whatever the providers are (nil entries
included), so none is called. -/
theorem Recovery_no_fault (rt : Runtime) (opts : List (Option OptionFunc)) (h : RecoveryHandler)
    (next : Context → Outcome) (now : Time) (stack : String) (c c1 : Context)
    (hrec : Recovery rt opts = .ok h) (hnext : next c = .returned c1) :
    h next now stack c = ⟨c1, [], none⟩ ∧
      (h next now stack c).ctx.status = c1.status ∧
      (h next now stack c).ctx.errors = c1.errors ∧
      (h next now stack c).ctx.aborted = c1.aborted := by
  obtain ⟨options, _, rfl⟩ := Recovery_ok_elim hrec
  have hres : recoveryHandler rt options next now stack c = ⟨c1, [], none⟩ := by
    simp [recoveryHandler, hnext]
  rw [hres]
  exact ⟨rfl, rfl, rfl, rfl⟩

theorem Recovery_no_fault_witness :
    recoveryHandler sampleRuntime
        { defaultOptions with logger := some sampleLogger, customFields := [none] }
        sampleNextErrors sampleFinish "" sampleContext
      = ⟨{ sampleContext with status := 400, errors := [.other "bad id", .other "bad name"] },
          [], none⟩ :=
  (Recovery_no_fault sampleRuntime
    [some (WithZapLogger (some sampleLogger)), some (WithCustomFields [none])] _
    sampleNextErrors sampleFinish "" sampleContext
    { sampleContext with status := 400, errors := [.other "bad id", .other "bad name"] }
    rfl rfl).1

end Wzap
